import Mathlib

/-!
Verification development for the EAAppreciate repository
(accomplishment submission-and-enrichment pipeline).

Strings coming from JavaScript are modelled as Lean `String`s; where a
JavaScript value may be `undefined`/`null` we use `Option String`
(`none` = absent).  Character-level algorithms (the `{{var}}`
substitution of the prompt builder and the word splitting of the
fallback statement generator) are modelled on `List Char`, mirroring the
JavaScript string primitives they embed (`String.prototype.replace` with
a global literal-text pattern, `String.prototype.split(' ')`).
External effects (HTTP calls, `Math.random`, `JSON.parse`) are passed in
as explicit parameters so that every orchestrator operation is a total
function of its inputs and of the behaviour of its collaborators.
-/

namespace EAApp

/-- Association-list lookup, modelling JavaScript object property access
`obj[key]` for objects built from JSON (string keys, first binding wins). -/
def alookup (k : String) : List (String × α) → Option α
  | [] => none
  | (k', v) :: t => if k' = k then some v else alookup k t

/-- JavaScript truthiness for an optional string: `undefined`, `null` and
the empty string are falsy. -/
def truthy : Option String → Bool
  | none => false
  | some s => s ≠ ""

/-- Template-literal interpolation of a possibly-undefined value:
in JavaScript both `` `${x}` `` with `x === undefined` yields the text
"undefined". -/
def jsInterp : Option String → String
  | none => "undefined"
  | some s => s

/-- `str.toLowerCase()` (structural version, so that concrete inputs
evaluate inside the kernel). -/
def jsToLower (s : String) : String := ⟨s.data.map Char.toLower⟩

/-! ## Prompt templates and the prompt builder (src/ai/ai-orchestrator.js) -/

/-- One declared variable of a prompt template:
`{ required: bool, default: string? }` (spec section 6). -/
structure VarConfig where
  required : Bool
  default : Option String
deriving DecidableEq, Repr

/-- A loaded prompt template (spec section 3, `PromptTemplate`).
`variables` keeps the JSON object's key order, as `Object.keys` does. -/
structure PromptTemplate where
  system : String
  contextTemplate : String
  task : String
  format : String
  vars : List (String × VarConfig)
deriving DecidableEq, Repr

/-- A finalized prompt (spec section 3, `ResolvedPrompt`). -/
structure ResolvedPrompt where
  system : String
  context : String
  task : String
  format : String
deriving DecidableEq, Repr

/-- The effective value of one declared variable
(ai-orchestrator.js lines 207-215): the supplied value unless it is
`undefined`/`null`/empty, else `varConfig.default || (varConfig.required ? '' : 'Not specified')`
— note that a present-but-empty default is falsy in JavaScript and falls
through to the required/not-required alternative. -/
def resolveVar (cfg : VarConfig) (supplied : Option String) : String :=
  let fallback :=
    match cfg.default with
    | some d => if d = "" then (if cfg.required then "" else "Not specified") else d
    | none => if cfg.required then "" else "Not specified"
  match supplied with
  | none => fallback
  | some v => if v = "" then fallback else v

/-- `processedVars` of `buildPrompt`: every declared variable resolved,
in declaration order. -/
def processVars (decls : List (String × VarConfig)) (supplied : List (String × String)) :
    List (String × String) :=
  decls.map (fun kc => (kc.1, resolveVar kc.2 (alookup kc.1 supplied)))

/-- The character sequence of the placeholder `{{key}}`. -/
def placeholder (k : String) : List Char :=
  '{' :: '{' :: (k.data ++ ['}', '}'])

/-- ECMAScript GetSubstitution for a string replacement and a regex with
no capture groups: `$$` inserts `$`, `$&` the matched text, a dollar
followed by a backquote (code 96) the part of the subject before the
match, `$` followed by a single quote (code 39) the part after it; every
other `$` (including `$n`, since the pattern `{{key}}` has no groups) is
literal text. -/
def expandDollar (matched before after : List Char) : List Char → List Char
  | [] => []
  | [c] => if c = '$' then ['$'] else [c]
  | c :: c₂ :: rest₂ =>
    if c = '$' then
      if c₂ = '$' then '$' :: expandDollar matched before after rest₂
      else if c₂ = '&' then matched ++ expandDollar matched before after rest₂
      else if c₂ = Char.ofNat 96 then before ++ expandDollar matched before after rest₂
      else if c₂ = Char.ofNat 39 then after ++ expandDollar matched before after rest₂
      else '$' :: expandDollar matched before after (c₂ :: rest₂)
    else c :: expandDollar matched before after (c₂ :: rest₂)

/-- Replacement of every non-overlapping occurrence of the literal
pattern `p` (nonempty) by the replacement template `r`, scanning left to
right and not rescanning the inserted text: the semantics of JavaScript
`str.replace(new RegExp(pattern, 'g'), r)` for a pattern without regex
metacharacters.  At each match the replacement template is expanded with
`expandDollar`: `before` accumulates the already-scanned part of the
subject (for a dollar-backquote sequence) and the not-yet-scanned part
supplies the dollar-quote sequence. -/
def replaceAllAux (p r : List Char) : List Char → Nat → List Char → List Char
  | before, skip + 1, _ :: cs => replaceAllAux p r before skip cs
  | _, _ + 1, [] => []
  | _, 0, [] => []
  | before, 0, c :: cs =>
    if p.isPrefixOf (c :: cs) then
      expandDollar p before (cs.drop (p.length - 1)) r ++
        replaceAllAux p r (before ++ p) (p.length - 1) cs
    else c :: replaceAllAux p r (before ++ [c]) 0 cs

/-- See `replaceAllAux`; scanning starts at the beginning of the subject
with nothing consumed and nothing to skip. -/
def replaceAll (p r : List Char) (l : List Char) : List Char := replaceAllAux p r [] 0 l

/-- `context.replace(new RegExp(`{{key}}`, 'g'), value)` on Lean strings. -/
def jsReplaceAll (s : String) (key val : String) : String :=
  ⟨replaceAll (placeholder key) val.data s.data⟩

/-- `str.trim()`: strip leading and trailing whitespace (structural
version, so that concrete prompts evaluate inside the kernel). -/
def trimChars (l : List Char) : List Char :=
  ((l.dropWhile Char.isWhitespace).reverse.dropWhile Char.isWhitespace).reverse

/-- `str.trim()` on Lean strings. -/
def jsTrim (s : String) : String := ⟨trimChars s.data⟩

/-- `buildPrompt` (ai-orchestrator.js lines 193-231) applied to a
template that was found in the store: resolves every declared variable,
then substitutes `{{key}}` for each declared key in declaration order,
and returns system/task/format unchanged together with the trimmed
substituted context. -/
def buildPrompt (t : PromptTemplate) (supplied : List (String × String)) : ResolvedPrompt :=
  { system := t.system
    context :=
      jsTrim ((processVars t.vars supplied).foldl
        (fun ctx kv => jsReplaceAll ctx kv.1 kv.2) t.contextTemplate)
    task := t.task
    format := t.format }

/-- The prompt store: template name to template, as loaded by `loadPrompts`. -/
abbrev Prompts := List (String × PromptTemplate)

/-- `this.buildPrompt(promptId, variables)` including the
template-not-found throw (modelled as `none`). -/
def buildPromptById (prompts : Prompts) (id : String)
    (supplied : List (String × String)) : Option ResolvedPrompt :=
  (alookup id prompts).map (fun t => buildPrompt t supplied)

/-! ## The LLM client adapter (`callSAPAI`, ai-orchestrator.js lines 58-89) -/

/-- The behaviour of the token-acquisition plus chat-completion HTTP round
trip, as observed by `callSAPAI`: either some step threw, or the request
resolved with a list of completion choices (each choice's
`message.content`, `none` when absent). -/
inductive HttpOutcome where
  | throws
  | ok (choices : List (Option String))
deriving DecidableEq, Repr

/-- A chat message of the completion request body. -/
structure ChatMessage where
  role : String
  content : String
deriving DecidableEq, Repr

/-- The completion request body `callSAPAI` posts (messages, temperature). -/
structure ChatRequest where
  messages : List ChatMessage
  temperature : ℚ
deriving DecidableEq, Repr

/-- The request body built in ai-orchestrator.js lines 72-78: a system
message whose content is `prompt.system + "\n\n"`, a user message
`prompt.context + "\n\n" + prompt.task + "\n\n" + prompt.format`, and
temperature 0.82. -/
def chatRequestOf (prompt : ResolvedPrompt) : ChatRequest :=
  { messages :=
      [ { role := "system", content := prompt.system ++ "\n\n" },
        { role := "user",
          content := prompt.context ++ "\n\n" ++ prompt.task ++ "\n\n" ++ prompt.format } ]
    temperature := 82 / 100 }

/-- The value `callSAPAI` resolves with: `{ json: false, response: result }`. -/
structure SAPResult where
  json : Bool
  response : Option String
deriving DecidableEq, Repr

/-- `callSAPAI` (ai-orchestrator.js lines 58-89): on any HTTP/auth error
the exception is logged and rethrown; on success the first choice's
`message.content` is extracted verbatim (an empty `choices` array makes
`choices[0].message` throw, which is also caught and rethrown). -/
def callSAPAI (_prompt : ResolvedPrompt) (h : HttpOutcome) : Except Unit SAPResult :=
  match h with
  | .throws => .error ()
  | .ok [] => .error ()
  | .ok (c :: _) => .ok { json := false, response := c }

/-! ## Input data shapes -/

/-- The `responses` sub-object of a submitted accomplishment. -/
structure Responses where
  emailAppreciation : Option String
  impactType : Option String
  additionalDetails : Option String
deriving DecidableEq, Repr

/-- The accomplishment draft data reaching the orchestrator and the
submit endpoint (fields absent in the request body are `none`). -/
structure DraftData where
  userName : Option String
  originalStatement : Option String
  aiGeneratedStatement : Option String
  responses : Option Responses
deriving DecidableEq, Repr

/-- `data.responses?.emailAppreciation` and friends. -/
def DraftData.rEmailAppreciation (d : DraftData) : Option String :=
  d.responses.bind Responses.emailAppreciation

def DraftData.rImpactType (d : DraftData) : Option String :=
  d.responses.bind Responses.impactType

def DraftData.rAdditionalDetails (d : DraftData) : Option String :=
  d.responses.bind Responses.additionalDetails

/-- The basic data sent to the question-generation endpoint. -/
structure BasicData where
  originalStatement : Option String
  impactType : Option String
  emailAppreciation : Option String
deriving DecidableEq, Repr

/-- JavaScript `x || d` for an optional string `x` and a string `d`. -/
def jsOr (o : Option String) (d : String) : String :=
  if truthy o then o.getD "" else d

/-- A variable-map entry for a value that is skipped when `undefined`. -/
def optEntry (k : String) : Option String → List (String × String)
  | none => []
  | some v => [(k, v)]

/-- The variable map built by `buildSAPAIPrompt` (lines 234-244). -/
def statementVars (d : DraftData) : List (String × String) :=
  optEntry "originalStatement" d.originalStatement ++
  optEntry "userName" d.userName ++
  optEntry "emailAppreciation" d.rEmailAppreciation ++
  optEntry "impactType" d.rImpactType ++
  optEntry "additionalDetails" d.rAdditionalDetails

/-- The variable map built by `generateContextualQuestions` (lines 121-125). -/
def questionVars (b : BasicData) : List (String × String) :=
  optEntry "originalStatement" b.originalStatement ++
  [("impactType", jsOr b.impactType "Not specified"),
   ("emailAppreciation", jsOr b.emailAppreciation "None provided")]

/-! ## JSON values (for the parsed question arrays) -/

/-- A JSON value, as produced by `JSON.parse`. -/
inductive Json where
  | null
  | bool (b : Bool)
  | num (n : Int)
  | str (s : String)
  | arr (elems : List Json)

/-- Whether a JSON value is a non-empty string. -/
def Json.isNonemptyStr : Json → Bool
  | .str s => s ≠ ""
  | _ => false

/-! ## Fallback (mock) generation -/

/-- The generic fallback question pool (lines 156-162). -/
def genericQuestions : List String :=
  ["What specific challenges did you overcome to achieve this?",
   "How long did this accomplishment take to complete?",
   "What was the measurable impact or outcome of your work?",
   "Who were the key stakeholders who benefited from this accomplishment?",
   "What skills or expertise did you demonstrate in completing this work?"]

/-- The customer-impact fallback question pool (lines 164-170). -/
def customerQuestions : List String :=
  ["What specific problem was the customer experiencing?",
   "How did your solution impact the customer's business operations?",
   "What technical approaches or tools did you use?",
   "How quickly were you able to resolve the customer's issue?",
   "What feedback did you receive from the customer about your work?"]

/-- The team-impact fallback question pool (lines 172-178). -/
def teamQuestions : List String :=
  ["How did this accomplishment benefit your team or organization?",
   "What collaboration or leadership skills did you demonstrate?",
   "What was the scope or scale of your contribution?",
   "How did this work improve team processes or efficiency?",
   "What knowledge or skills did you share with colleagues during this work?"]

/-- Pool selection of `generateMockQuestions` (lines 180-185). -/
def questionPool (impactType : Option String) : List String :=
  if impactType = some "customer" then customerQuestions
  else if impactType = some "team" then teamQuestions
  else genericQuestions

/-- `generateMockQuestions` (lines 155-190).  `[...questions].sort(() => 0.5 - Math.random())`
returns some permutation of the pool; the permutation and the
`Math.random() < 0.5` coin are passed in as the `shuffle` function and
the `takeFour` flag. -/
def generateMockQuestions (b : BasicData) (shuffle : List String → List String)
    (takeFour : Bool) : List String :=
  (shuffle (questionPool b.impactType)).take (if takeFour then 4 else 3)

/-- JavaScript `str.split(' ')`: split at every single space character,
keeping empty pieces (`''.split(' ') === ['']`). -/
def splitSp : List Char → List (List Char)
  | [] => [[]]
  | c :: cs =>
    if c = ' ' then [] :: splitSp cs
    else
      match splitSp cs with
      | [] => [[c]]
      | w :: ws => (c :: w) :: ws

/-- The number of words of a string in the sense of `str.split(' ').length`. -/
def spaceWordCount (s : String) : Nat := (splitSp s.data).length

/-- `words.join(' ')` on character lists. -/
def joinSpChars : List (List Char) → List Char
  | [] => []
  | [w] => w
  | w :: ws => w ++ ' ' :: joinSpChars ws

/-- `words.join(' ')`. -/
def joinSp (ws : List (List Char)) : String := ⟨joinSpChars ws⟩

/-- `statement.toLowerCase().replace(/^(today )?i /i, '')`: the anchored
regex strips one leading "today i " or "i " from the already-lowercased
statement. -/
def dePrefix (s : String) : String :=
  if "today i ".data.isPrefixOf s.data then ⟨s.data.drop 8⟩
  else if "i ".data.isPrefixOf s.data then ⟨s.data.drop 2⟩
  else s

/-- The customer fallback statement template (lines 249-265). -/
def customerTemplate (name : Option String) (statement : String)
    (appreciation details : Option String) : String :=
  let r0 := jsInterp name ++ " " ++ dePrefix (jsToLower statement)
  let r1 :=
    if truthy details then r0 ++ ". " ++ jsInterp details else r0
  let r2 :=
    if truthy appreciation then
      let a := jsInterp appreciation
      let quote := if a.length > 80 then (⟨a.data.take 77⟩ : String) ++ "..." else a
      r1 ++ " The customer expressed appreciation, stating \"" ++ quote ++ "\""
    else r1
  r2 ++ " This effort had direct customer impact and demonstrated strong problem-solving capabilities."

/-- The team fallback statement template (lines 267-280). -/
def teamTemplate (name : Option String) (statement : String)
    (appreciation details : Option String) : String :=
  let r0 := jsInterp name ++ " " ++ dePrefix (jsToLower statement)
  let r1 :=
    if truthy details then r0 ++ ". " ++ jsInterp details else r0
  let r2 :=
    if truthy appreciation then r1 ++ " This effort was recognized by colleagues."
    else r1
  r2 ++ " This initiative had positive team impact and contributed to collective success."

/-- The statement composed by `generateMockResponse` before the 100-word
check (lines 283-291): `data.responses?.impactType || 'team'` selects the
template (`templates[impactType] || templates.team`). -/
def composeMockStatement (name : Option String) (statement : String)
    (appreciation details impactType : Option String) : String :=
  if jsOr impactType "team" = "customer" then
    customerTemplate name statement appreciation details
  else
    teamTemplate name statement appreciation details

/-- `generateMockResponse` on a draft whose `originalStatement` is a
string (lines 293-299): hard truncation to the first 97 space-separated
words plus an ellipsis when the composed statement splits into more than
100 words. -/
def mockStatementCore (name : Option String) (statement : String)
    (appreciation details impactType : Option String) : String :=
  let composed := composeMockStatement name statement appreciation details impactType
  let words := splitSp composed.data
  if words.length > 100 then joinSp (words.take 97) ++ "..." else composed

/-- JavaScript exceptions that can cross the boundaries we model. -/
inductive JsError where
  | typeError
  | templateNotFound
  | llmFailed
  | noResponse
  | notFound
deriving DecidableEq, Repr

/-- `generateMockResponse` (lines 247-300): calling string methods on a
missing `originalStatement` throws a `TypeError` that propagates out of
the orchestrator's catch block. -/
def generateMockResponse (d : DraftData) : Except JsError String :=
  match d.originalStatement with
  | none => .error .typeError
  | some s =>
    .ok (mockStatementCore d.userName s d.rEmailAppreciation d.rAdditionalDetails d.rImpactType)

/-! ## Orchestrator use cases -/

/-- `generateAccomplishmentStatement` (lines 92-114): try prompt-build
plus LLM call; on any exception (template missing, auth/HTTP failure,
missing or empty response) fall back to `generateMockResponse`. -/
def generateAccomplishmentStatement (prompts : Prompts) (d : DraftData)
    (h : HttpOutcome) : Except JsError String :=
  match buildPromptById prompts "accomplishment-generation" (statementVars d) with
  | none => generateMockResponse d
  | some p =>
    match callSAPAI p h with
    | .error _ => generateMockResponse d
    | .ok r =>
      match r.response with
      | none => generateMockResponse d
      | some s => if s = "" then generateMockResponse d else .ok s

/-- `generateContextualQuestions` (lines 117-152) with `JSON.parse`
passed in as `parse` (`none` = the parse threw): the parsed value is
returned only when it is an array of length 3 to 5; every other outcome
falls back to `generateMockQuestions`. -/
def generateContextualQuestions (prompts : Prompts) (parse : String → Option Json)
    (b : BasicData) (h : HttpOutcome) (shuffle : List String → List String)
    (takeFour : Bool) : List Json :=
  let fallback := (generateMockQuestions b shuffle takeFour).map Json.str
  match buildPromptById prompts "contextual-questions-generation" (questionVars b) with
  | none => fallback
  | some p =>
    match callSAPAI p h with
    | .error _ => fallback
    | .ok r =>
      match r.response with
      | none => fallback
      | some s =>
        if s = "" then fallback
        else
          match parse s with
          | some (Json.arr qs) =>
            if 3 ≤ qs.length ∧ qs.length ≤ 5 then qs else fallback
          | _ => fallback

/-- `generateWithPrompt` (lines 376-393): the generic attempt phase; it
rethrows every failure instead of falling back. -/
def generateWithPrompt (prompts : Prompts) (promptId : String)
    (supplied : List (String × String)) (h : HttpOutcome) : Except JsError String :=
  match buildPromptById prompts promptId supplied with
  | none => .error .templateNotFound
  | some p =>
    match callSAPAI p h with
    | .error _ => .error .llmFailed
    | .ok r =>
      match r.response with
      | none => .error .noResponse
      | some s => if s = "" then .error .noResponse else .ok s

/-- Modelled from the spec: the shareable-post (LinkedIn-post) endpoint is
not under src/ — only its attempt-phase helper `generateWithPrompt` and its
UI caller `shareAccomplishment` are.  Spec section 4.4 documents only that
the fallback content is a non-empty string; this constant stands for it. -/
def mockShareablePost : String :=
  "Proud to share a recent accomplishment with my network."

/-- Modelled from the spec: `generateShareablePost` follows "the same
two-phase pattern using a dedicated template" (spec section 4.4) — the
attempt phase is the source's `generateWithPrompt` applied to the
dedicated template's id, and any failure falls back to the deterministic
non-empty local post. -/
def generateShareablePost (prompts : Prompts) (postTemplateId : String)
    (supplied : List (String × String)) (h : HttpOutcome) : String :=
  match generateWithPrompt prompts postTemplateId supplied h with
  | .ok s => s
  | .error _ => mockShareablePost

/-! ## The submit endpoint (src/index.js lines 131-155) -/

/-- The record handed to `dbServer.saveAccomplishment` (only the fields
the claims are about; `createdAt` and `id` are server-generated
timestamps outside this model). -/
structure SavedAccomplishment where
  draft : DraftData
  aiGeneratedStatement : String
deriving DecidableEq, Repr

/-- `POST /api/accomplishments`: reuse a truthy pre-generated statement,
otherwise generate one synchronously; the result is the record handed to
the persistence save operation (`.error` = the endpoint answered 500 and
no save happened). -/
def postAccomplishments (prompts : Prompts) (d : DraftData)
    (h : HttpOutcome) : Except JsError SavedAccomplishment :=
  if truthy d.aiGeneratedStatement then
    .ok { draft := d, aiGeneratedStatement := d.aiGeneratedStatement.getD "" }
  else
    match generateAccomplishmentStatement prompts d h with
    | .error e => .error e
    | .ok s => .ok { draft := d, aiGeneratedStatement := s }

/-! ## The spec's wording of context substitution

The spec (sections 4.2 and 8) describes the built context as the context
template "with every `{{variableName}}` occurrence substituted with its
resolved value; unmatched placeholders are left verbatim", i.e. a single
simultaneous left-to-right pass over the template.  `specSubst` is that
wording as a definition, to be compared with the source's sequential
per-variable `replaceAll` fold. -/

/-- The first declared variable whose placeholder starts at the head of
the text. -/
def findVar (pv : List (String × String)) (s : List Char) : Option (String × String) :=
  pv.find? (fun kv => (placeholder kv.1).isPrefixOf s)

/-- Simultaneous substitution over the original template text: at every
position, a placeholder of a resolved variable is replaced by its value
(which is not rescanned), and any other character — in particular every
unmatched placeholder — is kept verbatim. -/
def specSubstAux (pv : List (String × String)) : Nat → List Char → List Char
  | skip + 1, _ :: cs => specSubstAux pv skip cs
  | _ + 1, [] => []
  | 0, [] => []
  | 0, c :: cs =>
    match findVar pv (c :: cs) with
    | some kv => kv.2.data ++ specSubstAux pv ((placeholder kv.1).length - 1) cs
    | none => c :: specSubstAux pv 0 cs

/-- See `specSubstAux`; skipping is started at 0. -/
def specSubst (pv : List (String × String)) (l : List Char) : List Char :=
  specSubstAux pv 0 l

/-- `build` as the spec's words describe it: system, task and format
byte-identical to the template, and the context obtained by one
simultaneous substitution pass, trimmed. -/
def specBuild (t : PromptTemplate) (supplied : List (String × String)) : ResolvedPrompt :=
  { system := t.system
    context := jsTrim (String.mk (specSubst (processVars t.vars supplied) t.contextTemplate.data))
    task := t.task
    format := t.format }

/-! ## The submit page flow (src/ui/pages/submit/submit.js) -/

/-- Does `hay` contain `needle` as a contiguous substring? -/
def hasSub (hay needle : List Char) : Bool :=
  match hay with
  | [] => needle.isEmpty
  | _ :: t => needle.isPrefixOf hay || hasSub t needle

/-- The number of maximal runs of non-whitespace characters: for a
trimmed non-empty string this equals JavaScript
`text.trim().split(/\s+/).length`. -/
def wsRuns : List Char → Nat
  | [] => 0
  | c :: cs =>
    if c.isWhitespace then wsRuns cs
    else
      match cs with
      | [] => 1
      | c' :: _ => if c'.isWhitespace then 1 + wsRuns cs else wsRuns cs

/-- `updateWordCount`/`validateWordLimits` word counting:
`text.trim() === '' ? 0 : text.trim().split(/\s+/).length`. -/
def wsWordCount (s : String) : Nat :=
  if jsTrim s = "" then 0 else wsRuns (jsTrim s).data

/-- The form fields read by the submit page's question-generation handler. -/
structure SubmitForm where
  originalStatement : String
  impactType : String
  emailAppreciation : String
  dynamicAnswers : List String
deriving DecidableEq, Repr

/-- `validateWordLimits` (submit.js lines 713-740): each non-blank field
over 60 words contributes one named error line. -/
def validateWordLimits (f : SubmitForm) : List String :=
  let fields :=
    [(f.originalStatement, "Original Statement"), (f.emailAppreciation, "Email Appreciation")] ++
    (f.dynamicAnswers.enum.map (fun ia => (ia.2, "Question " ++ toString (ia.1 + 1))))
  fields.foldr
    (fun fv acc =>
      if jsTrim fv.1 ≠ "" ∧ wsWordCount fv.1 > 60 then
        (fv.2 ++ " exceeds 60 word limit (" ++ toString (wsWordCount fv.1) ++ " words)") :: acc
      else acc) []

/-- The states of the submission flow the claims mention. -/
inductive FlowState where
  | Basic
  | Dynamic
deriving DecidableEq, Repr

/-- The behaviour of the `fetch('/api/questions/generate')` round trip:
a network/parse failure, or a JSON body with its `success` flag and
question list. -/
inductive FetchResult where
  | networkError
  | ok (success : Bool) (questions : List String)
deriving DecidableEq, Repr

/-- What one run of the handler leaves behind: the form panel shown
afterwards, the error text passed to `showError` (if any), and how many
requests were sent to the question-generation endpoint. -/
structure UIStepResult where
  state : FlowState
  errorShown : Option String
  networkCalls : Nat
deriving DecidableEq, Repr

/-- The submit page's `generateContextualQuestions` click handler
(submit.js lines 51-114), run from the Basic panel: validation failures
return before the `fetch`; a successful response renders the questions
and shows the dynamic panel. -/
def uiGenerateQuestions (f : SubmitForm) (fetch : FetchResult) : UIStepResult :=
  if jsTrim f.originalStatement = "" then
    { state := .Basic, errorShown := some "Please describe your accomplishment first.",
      networkCalls := 0 }
  else if f.impactType = "" then
    { state := .Basic, errorShown := some "Please select the impact type.", networkCalls := 0 }
  else
    let errs := validateWordLimits f
    if errs ≠ [] then
      { state := .Basic,
        errorShown :=
          some ("Please reduce text in the following fields:\n" ++ String.intercalate "\n" errs),
        networkCalls := 0 }
    else
      match fetch with
      | .networkError =>
        { state := .Basic,
          errorShown := some "Failed to generate contextual questions. Please try again.",
          networkCalls := 1 }
      | .ok success _ =>
        if success then { state := .Dynamic, errorShown := none, networkCalls := 1 }
        else
          { state := .Basic,
            errorShown := some "Failed to generate contextual questions. Please try again.",
            networkCalls := 1 }

/-! ## The persistence counters (db-server.js, `toggleCongratulations`
and `toggleVote`) -/

/-- The columns of an ACCOMPLISHMENTS row that the toggle operations
read and write. -/
structure AccRow where
  congratulationsCount : Nat
  votesCount : Nat
deriving DecidableEq, Repr

/-- The store keyed by accomplishment id (the table, with ID unique). -/
abbrev Store := List (String × AccRow)

/-- `UPDATE ACCOMPLISHMENTS SET ... WHERE ID = ?`. -/
def updateRow (store : Store) (id : String) (row : AccRow) : Store :=
  store.map (fun kv => if kv.1 = id then (kv.1, row) else kv)

/-- The JSON payload `toggleCongratulations` resolves with. -/
structure CongratsResult where
  congratulationsCount : Nat
  userCongratulated : Bool
deriving DecidableEq, Repr

/-- The JSON payload `toggleVote` resolves with. -/
structure VoteResult where
  votesCount : Nat
  userVoted : Bool
deriving DecidableEq, Repr

/-- `toggleCongratulations` (db-server.js lines 267-306): select the
current count by id (absent id: 'Accomplishment not found' is thrown and
wrapped), always increment by one — the user email is never consulted —
and report `userCongratulated: true`. -/
def toggleCongratulations (store : Store) (id : String) (_userEmail : String) :
    Except JsError (Store × CongratsResult) :=
  match alookup id store with
  | none => .error .notFound
  | some row =>
    let newCount := row.congratulationsCount + 1
    .ok (updateRow store id { row with congratulationsCount := newCount },
         { congratulationsCount := newCount, userCongratulated := true })

/-- `toggleVote` (db-server.js lines 309-347): same shape on the votes
counter. -/
def toggleVote (store : Store) (id : String) (_userEmail : String) :
    Except JsError (Store × VoteResult) :=
  match alookup id store with
  | none => .error .notFound
  | some row =>
    let newCount := row.votesCount + 1
    .ok (updateRow store id { row with votesCount := newCount },
         { votesCount := newCount, userVoted := true })

/-- `k` successive congratulations toggles by the same user on the same
id (`none` when any of them fails). -/
def iterateCongratulations (userEmail : String) (id : String) :
    Nat → Store → Option Store
  | 0, store => some store
  | k + 1, store =>
    match toggleCongratulations store id userEmail with
    | .error _ => none
    | .ok (store', _) => iterateCongratulations userEmail id k store'

/-- `k` successive vote toggles by the same user on the same id. -/
def iterateVotes (userEmail : String) (id : String) :
    Nat → Store → Option Store
  | 0, store => some store
  | k + 1, store =>
    match toggleVote store id userEmail with
    | .error _ => none
    | .ok (store', _) => iterateVotes userEmail id k store'

/-! # Claims -/

/-! ## C7 — the completion request -/

/-- C7, counterexample.  The claim states the system message's content is
byte-identical to the resolved prompt's system text; the source appends a
blank-line separator (`prompt.system + "\n\n"`, ai-orchestrator.js line 74),
so for the prompt with system "S" the two message contents are not
["S", "C\n\nT\n\nF"]. -/
theorem chatRequest_claim_counterexample :
    (chatRequestOf ⟨"S", "C", "T", "F"⟩).messages.map ChatMessage.content ≠
      ["S", "C\n\nT\n\nF"] := by
  decide

/-- C7, amended.  Every completion call sends exactly two messages — a
system message whose content is the resolved prompt's system text followed
by a blank-line separator, and a user message equal to
context + "\n\n" + task + "\n\n" + format — with temperature 0.82, and
`callSAPAI` returns the first completion's text verbatim when at least one
choice is present. -/
theorem chatRequest_shape (p : ResolvedPrompt) (c : Option String)
    (rest : List (Option String)) :
    (chatRequestOf p).messages =
      [{ role := "system", content := p.system ++ "\n\n" },
       { role := "user",
         content := p.context ++ "\n\n" ++ p.task ++ "\n\n" ++ p.format }] ∧
    (chatRequestOf p).temperature = 82 / 100 ∧
    callSAPAI p (.ok (c :: rest)) = .ok { json := false, response := c } := by
  exact ⟨rfl, rfl, rfl⟩

/-! ## C10 — the counter toggles -/

/-- Looking an id up after `updateRow` on that id finds the new row. -/
theorem alookup_updateRow_self (store : Store) (id : String) (row newRow : AccRow)
    (h : alookup id store = some row) :
    alookup id (updateRow store id newRow) = some newRow := by
  induction store with
  | nil => simp [alookup] at h
  | cons kv t ih =>
    obtain ⟨k', v⟩ := kv
    by_cases hk : k' = id
    · subst hk
      have h1 : updateRow ((k', v) :: t) k' newRow =
          (k', newRow) :: updateRow t k' newRow := by
        simp [updateRow, List.map_cons]
      rw [h1]
      simp [alookup]
    · have h1 : updateRow ((k', v) :: t) id newRow =
          (k', v) :: updateRow t id newRow := by
        simp only [updateRow, List.map_cons, if_neg hk]
      rw [h1]
      simp only [alookup, if_neg hk] at h ⊢
      exact ih h

/-- `k` successive congratulations toggles add `k` to the stored counter. -/
theorem iterateCongratulations_adds (email id : String) :
    ∀ (k : Nat) (store : Store) (row : AccRow), alookup id store = some row →
      ∃ store', iterateCongratulations email id k store = some store' ∧
        alookup id store' = some ⟨row.congratulationsCount + k, row.votesCount⟩ := by
  intro k
  induction k with
  | zero => intro store row h; exact ⟨store, rfl, by simpa using h⟩
  | succ n ih =>
    intro store row h
    have hstep : alookup id (updateRow store id
        ⟨row.congratulationsCount + 1, row.votesCount⟩) =
        some ⟨row.congratulationsCount + 1, row.votesCount⟩ :=
      alookup_updateRow_self store id row _ h
    obtain ⟨store', h1, h2⟩ := ih _ _ hstep
    refine ⟨store', ?_, ?_⟩
    · simp only [iterateCongratulations, toggleCongratulations, h]
      exact h1
    · rw [h2]
      have : row.congratulationsCount + 1 + n = row.congratulationsCount + (n + 1) := by omega
      rw [this]

/-- `k` successive vote toggles add `k` to the stored counter. -/
theorem iterateVotes_adds (email id : String) :
    ∀ (k : Nat) (store : Store) (row : AccRow), alookup id store = some row →
      ∃ store', iterateVotes email id k store = some store' ∧
        alookup id store' = some ⟨row.congratulationsCount, row.votesCount + k⟩ := by
  intro k
  induction k with
  | zero => intro store row h; exact ⟨store, rfl, by simpa using h⟩
  | succ n ih =>
    intro store row h
    have hstep : alookup id (updateRow store id
        ⟨row.congratulationsCount, row.votesCount + 1⟩) =
        some ⟨row.congratulationsCount, row.votesCount + 1⟩ :=
      alookup_updateRow_self store id row _ h
    obtain ⟨store', h1, h2⟩ := ih _ _ hstep
    refine ⟨store', ?_, ?_⟩
    · simp only [iterateVotes, toggleVote, h]
      exact h1
    · rw [h2]
      have : row.votesCount + 1 + n = row.votesCount + (n + 1) := by omega
      rw [this]

/-- C10.  For every id present in the store, each successful toggle call
stores exactly the previous counter plus one and reports the user flag as
true, and — despite the name — repeated calls by the same user keep
incrementing: after `k` calls the stored counter is the original plus
`k`, so it never decreases. -/
theorem toggle_increment (store : Store) (id email : String) (row : AccRow)
    (h : alookup id store = some row) :
    toggleCongratulations store id email =
      .ok (updateRow store id ⟨row.congratulationsCount + 1, row.votesCount⟩,
           { congratulationsCount := row.congratulationsCount + 1, userCongratulated := true }) ∧
    alookup id (updateRow store id ⟨row.congratulationsCount + 1, row.votesCount⟩) =
      some ⟨row.congratulationsCount + 1, row.votesCount⟩ ∧
    toggleVote store id email =
      .ok (updateRow store id ⟨row.congratulationsCount, row.votesCount + 1⟩,
           { votesCount := row.votesCount + 1, userVoted := true }) ∧
    alookup id (updateRow store id ⟨row.congratulationsCount, row.votesCount + 1⟩) =
      some ⟨row.congratulationsCount, row.votesCount + 1⟩ ∧
    (∀ k : Nat, ∃ store', iterateCongratulations email id k store = some store' ∧
      alookup id store' = some ⟨row.congratulationsCount + k, row.votesCount⟩) ∧
    (∀ k : Nat, ∃ store', iterateVotes email id k store = some store' ∧
      alookup id store' = some ⟨row.congratulationsCount, row.votesCount + k⟩) := by
  refine ⟨?_, ?_, ?_, ?_, ?_, ?_⟩
  · simp [toggleCongratulations, h]
  · exact alookup_updateRow_self store id row _ h
  · simp [toggleVote, h]
  · exact alookup_updateRow_self store id row _ h
  · intro k; exact iterateCongratulations_adds email id k store row h
  · intro k; exact iterateVotes_adds email id k store row h

/-- C10, witness: a one-row store with 2 congratulations and 5 votes. -/
theorem toggle_increment_witness :
    toggleCongratulations [("a1", ⟨2, 5⟩)] "a1" "user@example.com" =
      .ok (updateRow [("a1", ⟨2, 5⟩)] "a1" ⟨3, 5⟩,
           { congratulationsCount := 3, userCongratulated := true }) := by
  exact (toggle_increment [("a1", ⟨2, 5⟩)] "a1" "user@example.com" ⟨2, 5⟩ (by decide)).1

/-! ## C4 — variable resolution -/

/-- The resolution rule exactly as the claim words it: supplied value
when non-empty; otherwise the template's default when present; otherwise
the empty string (both when not required and when required-but-missing). -/
def claimedResolveVar (cfg : VarConfig) (supplied : Option String) : String :=
  let fallback :=
    match cfg.default with
    | some d => d
    | none => ""
  match supplied with
  | none => fallback
  | some v => if v = "" then fallback else v

/-- C4, counterexample.  A variable that is not required, has no default
and is not supplied resolves to the string "Not specified"
(ai-orchestrator.js line 212), not to the empty string the claim
describes. -/
theorem resolveVar_claim_counterexample :
    resolveVar ⟨false, none⟩ none ≠ claimedResolveVar ⟨false, none⟩ none ∧
    resolveVar ⟨false, none⟩ none = "Not specified" := by
  decide

/-- C4, amended.  In `buildPrompt`, the effective value of each declared
variable is: the supplied value when it is non-empty; otherwise the
template's default when it is present and non-empty; otherwise the empty
string when the variable is required, and the string "Not specified" when
it is not; a required variable that is missing with no default therefore
resolves to the empty string, and no case aborts the build. -/
theorem resolveVar_rule (decls : List (String × VarConfig))
    (supplied : List (String × String)) (k : String) (cfg : VarConfig)
    (hmem : (k, cfg) ∈ decls) (hnodup : (decls.map Prod.fst).Nodup) :
    alookup k (processVars decls supplied) =
      some (if truthy (alookup k supplied) then (alookup k supplied).getD ""
            else if truthy cfg.default then cfg.default.getD ""
            else if cfg.required then "" else "Not specified") := by
  induction decls with
  | nil => simp at hmem
  | cons kc t ih =>
    simp only [List.map_cons, List.nodup_cons] at hnodup
    rcases List.mem_cons.mp hmem with heq | htail
    · subst heq
      simp only [processVars, List.map_cons, alookup, if_pos rfl]
      cases hsup : alookup k supplied with
      | none =>
        cases hdef : cfg.default with
        | none => cases hreq : cfg.required <;> simp [resolveVar, truthy, hdef, hreq]
        | some d =>
          by_cases hd : d = "" <;>
            cases hreq : cfg.required <;>
              simp [resolveVar, truthy, hdef, hreq, hd]
      | some v =>
        by_cases hv : v = ""
        · subst hv
          cases hdef : cfg.default with
          | none => cases hreq : cfg.required <;> simp [resolveVar, truthy, hdef, hreq]
          | some d =>
            by_cases hd : d = "" <;>
              cases hreq : cfg.required <;>
                simp [resolveVar, truthy, hdef, hreq, hd]
        · simp [resolveVar, truthy, hv]
    · have hk : kc.1 ≠ k := by
        intro hkk
        exact hnodup.1 (hkk ▸ (List.mem_map.mpr ⟨(k, cfg), htail, rfl⟩))
      simp only [processVars, List.map_cons, alookup, if_neg hk]
      exact ih htail hnodup.2

/-- C4, witness: a not-required variable with no default and no supplied
value resolves to "Not specified" inside the processed variable map. -/
theorem resolveVar_rule_witness :
    alookup "tone" (processVars [("tone", ⟨false, none⟩)] []) = some "Not specified" := by
  exact resolveVar_rule [("tone", ⟨false, none⟩)] [] "tone" ⟨false, none⟩
    (by decide) (by decide)

/-! ## C8 — empty original statement blocks the Basic to Dynamic transition -/

/-- C8, counterexample.  With an empty original statement the handler
stays in Basic and makes no network call, but the error it surfaces is
the fixed text "Please describe your accomplishment first.", which does
not list the original statement field by name (the word-limit validation
errors are the ones that name fields, e.g. "Original Statement exceeds
60 word limit"). -/
theorem uiQuestions_claim_counterexample :
    uiGenerateQuestions ⟨"", "customer", "", []⟩ (.ok true ["q1", "q2", "q3"]) =
      { state := .Basic,
        errorShown := some "Please describe your accomplishment first.",
        networkCalls := 0 } ∧
    hasSub (jsToLower "Please describe your accomplishment first.").data
      "original statement".data = false := by
  exact ⟨rfl, rfl⟩

/-- C8, amended.  From the Basic state, triggering the generate-questions
action with an empty (or blank) original statement leaves the form in the
Basic state, surfaces the fixed validation error
"Please describe your accomplishment first." (which refers to the
accomplishment description but does not list the field's name), and
performs no call to the question-generation endpoint. -/
theorem uiQuestions_empty_statement (f : SubmitForm) (fetch : FetchResult)
    (h : jsTrim f.originalStatement = "") :
    uiGenerateQuestions f fetch =
      { state := .Basic,
        errorShown := some "Please describe your accomplishment first.",
        networkCalls := 0 } := by
  unfold uiGenerateQuestions
  rw [h]
  simp

/-- C8, witness: a whitespace-only original statement with a selected
impact type and an available network. -/
theorem uiQuestions_empty_statement_witness :
    uiGenerateQuestions ⟨"   ", "customer", "", []⟩ (.ok true ["q"]) =
      { state := .Basic,
        errorShown := some "Please describe your accomplishment first.",
        networkCalls := 0 } := by
  exact uiQuestions_empty_statement ⟨"   ", "customer", "", []⟩ (.ok true ["q"]) (by decide)

/-! ## C9 — the shareable-post use case -/

/-- The attempt phase only succeeds with a non-empty (truthy) response. -/
theorem generateWithPrompt_ok_nonempty (prompts : Prompts) (promptId : String)
    (supplied : List (String × String)) (h : HttpOutcome) (s : String)
    (hok : generateWithPrompt prompts promptId supplied h = .ok s) : s ≠ "" := by
  unfold generateWithPrompt at hok
  split at hok
  · exact absurd hok (by simp)
  · split at hok
    · exact absurd hok (by simp)
    · split at hok
      · exact absurd hok (by simp)
      · split at hok
        · exact absurd hok (by simp)
        · injection hok with heq
          rw [← heq]
          assumption

/-- C9.  `generateShareablePost` follows the two-phase attempt/fallback
protocol: the attempt phase builds the dedicated prompt and calls the
adapter via `generateWithPrompt`, any failure of it yields the
deterministic local fallback post, a success is returned verbatim, and in
particular whenever the dedicated template is present the caller receives
a non-empty string and no exception. -/
theorem shareablePost_nonempty (prompts : Prompts) (postId : String)
    (supplied : List (String × String)) (h : HttpOutcome) (t : PromptTemplate)
    (ht : alookup postId prompts = some t) :
    generateShareablePost prompts postId supplied h ≠ "" ∧
    (∀ e, generateWithPrompt prompts postId supplied h = .error e →
      generateShareablePost prompts postId supplied h = mockShareablePost) ∧
    (∀ s, generateWithPrompt prompts postId supplied h = .ok s →
      generateShareablePost prompts postId supplied h = s) := by
  unfold generateShareablePost
  cases hg : generateWithPrompt prompts postId supplied h with
  | error e =>
    refine ⟨?_, fun e' _ => rfl, fun s hs => absurd hs (by simp)⟩
    show mockShareablePost ≠ ""
    decide
  | ok s =>
    refine ⟨generateWithPrompt_ok_nonempty prompts postId supplied h s hg,
      fun e he => absurd he (by simp), fun s' hs' => ?_⟩
    have heq : s = s' := by injection hs'
    show s = s'
    exact heq

/-- C9, witness: the dedicated template is loaded and the adapter throws;
the caller still receives a non-empty post. -/
theorem shareablePost_nonempty_witness :
    generateShareablePost [("linkedin-post-generation", ⟨"s", "c", "t", "f", []⟩)]
      "linkedin-post-generation" [] .throws ≠ "" := by
  exact (shareablePost_nonempty [("linkedin-post-generation", ⟨"s", "c", "t", "f", []⟩)]
    "linkedin-post-generation" [] .throws ⟨"s", "c", "t", "f", []⟩ (by decide)).1

/-! ## C6 — persisted statements are non-empty -/

/-- Appending a non-empty string yields a non-empty string. -/
theorem str_append_ne_empty (a b : String) (hb : b ≠ "") : a ++ b ≠ "" := by
  intro hcontra
  have h0 : (a ++ b).data = ("" : String).data := congrArg String.data hcontra
  rw [String.data_append] at h0
  have hb' : b.data = [] := (List.append_eq_nil.mp h0).2
  exact hb (String.ext hb')

/-- Both fallback templates end with a fixed non-empty closing sentence. -/
theorem composeMockStatement_ne_empty (n : Option String) (s : String)
    (a d it : Option String) : composeMockStatement n s a d it ≠ "" := by
  unfold composeMockStatement
  by_cases hit : jsOr it "team" = "customer"
  · rw [if_pos hit]
    exact str_append_ne_empty _ _ (by decide)
  · rw [if_neg hit]
    exact str_append_ne_empty _ _ (by decide)

/-- The fallback statement is never the empty string. -/
theorem mockStatementCore_ne_empty (n : Option String) (s : String)
    (a d it : Option String) : mockStatementCore n s a d it ≠ "" := by
  unfold mockStatementCore
  by_cases hlen :
      (splitSp (composeMockStatement n s a d it).data).length > 100
  · rw [if_pos hlen]
    exact str_append_ne_empty _ _ (by decide)
  · rw [if_neg hlen]
    exact composeMockStatement_ne_empty n s a d it

/-- `generateAccomplishmentStatement` only returns non-empty strings: the
success path is gated on a truthy response and the fallback path ends in
a fixed closing sentence. -/
theorem genStatement_ok_nonempty (prompts : Prompts) (d : DraftData)
    (h : HttpOutcome) (s : String)
    (hok : generateAccomplishmentStatement prompts d h = .ok s) : s ≠ "" := by
  have hmock : ∀ s', generateMockResponse d = .ok s' → s' ≠ "" := by
    intro s' hs'
    unfold generateMockResponse at hs'
    cases ho : d.originalStatement with
    | none => rw [ho] at hs'; exact absurd hs' (by simp)
    | some stmt =>
      rw [ho] at hs'
      have : mockStatementCore d.userName stmt d.rEmailAppreciation
          d.rAdditionalDetails d.rImpactType = s' := by injection hs'
      rw [← this]
      exact mockStatementCore_ne_empty _ _ _ _ _
  unfold generateAccomplishmentStatement at hok
  split at hok
  · exact hmock s hok
  · split at hok
    · exact hmock s hok
    · split at hok
      · exact hmock s hok
      · split at hok
        · exact hmock s hok
        · injection hok with heq
          rw [← heq]
          assumption

/-- C6.  Every record handed to the persistence save operation has a
non-empty `aiGeneratedStatement`: a truthy pre-generated statement is
non-empty by definition, and otherwise the submit endpoint synchronously
generates one, whose success and fallback paths both yield non-empty
strings (a generation exception answers 500 without saving). -/
theorem saved_statement_nonempty (prompts : Prompts) (d : DraftData)
    (h : HttpOutcome) (rec : SavedAccomplishment)
    (hok : postAccomplishments prompts d h = .ok rec) :
    rec.aiGeneratedStatement ≠ "" := by
  unfold postAccomplishments at hok
  by_cases ht : truthy d.aiGeneratedStatement
  · rw [if_pos (by simpa using ht)] at hok
    have hrec : ({ draft := d, aiGeneratedStatement := d.aiGeneratedStatement.getD "" } :
        SavedAccomplishment) = rec := by injection hok
    rw [← hrec]
    cases ho : d.aiGeneratedStatement with
    | none => rw [ho] at ht; exact absurd ht (by simp [truthy])
    | some s =>
      rw [ho] at ht
      simp only [truthy, decide_eq_true_eq] at ht
      simpa using ht
  · rw [if_neg (by simpa using ht)] at hok
    cases hg : generateAccomplishmentStatement prompts d h with
    | error e => rw [hg] at hok; exact absurd hok (by simp)
    | ok s =>
      rw [hg] at hok
      have hrec : ({ draft := d, aiGeneratedStatement := s } : SavedAccomplishment) = rec := by
        injection hok
      rw [← hrec]
      simpa using genStatement_ok_nonempty prompts d h s hg

/-- C6, witness: a draft arriving with a pre-generated statement. -/
theorem saved_statement_nonempty_witness :
    ({ draft := ⟨some "Pat", some "I did it", some "Done.", none⟩,
       aiGeneratedStatement := "Done." } : SavedAccomplishment).aiGeneratedStatement ≠ "" := by
  exact saved_statement_nonempty [] ⟨some "Pat", some "I did it", some "Done.", none⟩
    .throws _ rfl

/-! ## C2 — all attempt-phase failures fall back locally -/

/-- The failure cases of the statement use case's attempt phase: prompt
template missing, token/HTTP error, no choices, or a missing/empty
response content. -/
def stmtAttemptFails (prompts : Prompts) (h : HttpOutcome) : Bool :=
  (alookup "accomplishment-generation" prompts).isNone ||
  match h with
  | .throws => true
  | .ok [] => true
  | .ok (c :: _) => !truthy c

/-- The shape validation of the questions use case: a parsed JSON array
of length 3 to 5. -/
def parsedQuestions (parse : String → Option Json) (s : String) : Option (List Json) :=
  match parse s with
  | some (Json.arr qs) => if 3 ≤ qs.length ∧ qs.length ≤ 5 then some qs else none
  | _ => none

/-- The failure cases of the questions use case's attempt phase: those of
the statement case plus unparseable content and wrongly-shaped arrays. -/
def qAttemptFails (prompts : Prompts) (parse : String → Option Json)
    (h : HttpOutcome) : Bool :=
  (alookup "contextual-questions-generation" prompts).isNone ||
  match h with
  | .throws => true
  | .ok [] => true
  | .ok (c :: _) => !truthy c || (parsedQuestions parse (c.getD "")).isNone

/-- Any attempt-phase failure makes `generateAccomplishmentStatement`
return exactly the local mock response. -/
theorem stmtFails_gives_mock (prompts : Prompts) (d : DraftData) (h : HttpOutcome)
    (hf : stmtAttemptFails prompts h = true) :
    generateAccomplishmentStatement prompts d h = generateMockResponse d := by
  unfold generateAccomplishmentStatement buildPromptById
  unfold stmtAttemptFails at hf
  cases ha : alookup "accomplishment-generation" prompts with
  | none => simp
  | some t =>
    rw [ha] at hf
    simp only [Option.isNone_some, Bool.false_or] at hf
    cases h with
    | throws => simp [callSAPAI]
    | ok choices =>
      cases choices with
      | nil => simp [callSAPAI]
      | cons c rest =>
        cases c with
        | none => simp [callSAPAI]
        | some str =>
          have hstr : str = "" := by
            simpa [truthy] using hf
          subst hstr
          simp [callSAPAI]

/-- Any attempt-phase failure makes `generateContextualQuestions` return
exactly the local mock questions. -/
theorem qFails_gives_mock (prompts : Prompts) (parse : String → Option Json)
    (b : BasicData) (h : HttpOutcome) (shuffle : List String → List String)
    (takeFour : Bool) (hf : qAttemptFails prompts parse h = true) :
    generateContextualQuestions prompts parse b h shuffle takeFour =
      (generateMockQuestions b shuffle takeFour).map Json.str := by
  unfold generateContextualQuestions buildPromptById
  unfold qAttemptFails at hf
  cases ha : alookup "contextual-questions-generation" prompts with
  | none => simp
  | some t =>
    rw [ha] at hf
    simp only [Option.isNone_some, Bool.false_or] at hf
    cases h with
    | throws => simp [callSAPAI]
    | ok choices =>
      cases choices with
      | nil => simp [callSAPAI]
      | cons c rest =>
        cases c with
        | none => simp [callSAPAI]
        | some str =>
          by_cases hstr : str = ""
          · subst hstr
            simp [callSAPAI]
          · have htr : truthy (some str) = true := by simp [truthy, hstr]
            simp only [Option.getD_some, htr, Bool.not_true, Bool.false_or] at hf
            simp only [callSAPAI]
            rw [Option.isNone_iff_eq_none] at hf
            unfold parsedQuestions at hf
            simp only [if_neg hstr]
            cases hp : parse str with
            | none => simp
            | some j =>
              rw [hp] at hf
              cases j with
              | null => simp
              | bool bv => simp
              | num n => simp
              | str s' => simp
              | arr qs =>
                have hcond : ¬(3 ≤ qs.length ∧ qs.length ≤ 5) := by
                  by_contra hc
                  simp [hc] at hf
                simp [hcond]

/-- C2.  Whenever the attempt phase of `generateAccomplishmentStatement`
or of `generateContextualQuestions` fails for any reason (template
missing, token/HTTP error, missing or empty response, unparseable or
wrongly shaped content), the operation returns the deterministic local
fallback and raises nothing, provided the draft has an original
statement (the only field whose absence makes the fallback generator
itself throw). -/
theorem orchestrator_failure_fallback (prompts : Prompts) (d : DraftData)
    (b : BasicData) (parse : String → Option Json) (h1 h2 : HttpOutcome)
    (shuffle : List String → List String) (takeFour : Bool) (stmt : String)
    (hstmt : d.originalStatement = some stmt)
    (hf1 : stmtAttemptFails prompts h1 = true)
    (hf2 : qAttemptFails prompts parse h2 = true) :
    generateAccomplishmentStatement prompts d h1 =
      .ok (mockStatementCore d.userName stmt d.rEmailAppreciation
        d.rAdditionalDetails d.rImpactType) ∧
    generateContextualQuestions prompts parse b h2 shuffle takeFour =
      (generateMockQuestions b shuffle takeFour).map Json.str := by
  constructor
  · rw [stmtFails_gives_mock prompts d h1 hf1]
    unfold generateMockResponse
    rw [hstmt]
  · exact qFails_gives_mock prompts parse b h2 shuffle takeFour hf2

/-- C2, witness: an empty prompt store and a thrown HTTP call on both
use cases. -/
theorem orchestrator_failure_fallback_witness :
    generateAccomplishmentStatement [] ⟨some "Pat", some "I fixed it", none, none⟩ .throws =
      .ok (mockStatementCore (some "Pat") "I fixed it" none none none) ∧
    generateContextualQuestions [] (fun _ => none) ⟨some "s", none, none⟩ .throws
        (fun l => l) false =
      (generateMockQuestions ⟨some "s", none, none⟩ (fun l => l) false).map Json.str := by
  exact orchestrator_failure_fallback [] ⟨some "Pat", some "I fixed it", none, none⟩
    ⟨some "s", none, none⟩ (fun _ => none) .throws .throws (fun l => l) false
    "I fixed it" rfl (by decide) (by decide)

/-! ## C1 — shape of the generated question list -/

/-- The fallback question list always has exactly 3 or 4 entries. -/
theorem mockQuestions_length (b : BasicData) (shuffle : List String → List String)
    (takeFour : Bool) (hsh : ∀ l, (shuffle l).Perm l) :
    (generateMockQuestions b shuffle takeFour).length = if takeFour then 4 else 3 := by
  unfold generateMockQuestions
  rw [List.length_take]
  have hlen : (shuffle (questionPool b.impactType)).length =
      (questionPool b.impactType).length := (hsh _).length_eq
  have hp : (questionPool b.impactType).length = 5 := by
    unfold questionPool
    split
    · rfl
    · split <;> rfl
  rw [hlen, hp]
  cases takeFour <;> simp

/-- C1, counterexample.  The success path validates only that the parsed
value is an array of length 3 to 5, not that its entries are non-empty
strings: an adapter responding with the JSON text containing three empty
strings (the supplied parse function agrees with `JSON.parse` on that
input) makes `generateContextualQuestions` return three empty strings. -/
theorem contextualQuestions_claim_counterexample :
    generateContextualQuestions
        [("contextual-questions-generation", ⟨"s", "c", "t", "f", []⟩)]
        (fun s => if s = "[\"\",\"\",\"\"]" then
            some (Json.arr [Json.str "", Json.str "", Json.str ""]) else none)
        ⟨some "stmt", some "customer", none⟩
        (.ok [some "[\"\",\"\",\"\"]"]) (fun l => l) false =
      [Json.str "", Json.str "", Json.str ""] ∧
    (Json.str "").isNonemptyStr = false := by
  exact ⟨rfl, rfl⟩

/-- C1, amended.  For every input and every adapter behaviour,
`generateContextualQuestions` returns an ordered list of between 3 and 5
elements: the success path returns the parsed array exactly when it is a
JSON array of length in [3,5] (its elements need not be strings, nor
non-empty), and the fallback path returns 3 or 4 non-empty question
strings drawn from a fixed pool keyed by impact type. -/
theorem contextualQuestions_shape (prompts : Prompts) (parse : String → Option Json)
    (b : BasicData) (h : HttpOutcome) (shuffle : List String → List String)
    (takeFour : Bool) (hsh : ∀ l, (shuffle l).Perm l) :
    (3 ≤ (generateContextualQuestions prompts parse b h shuffle takeFour).length ∧
      (generateContextualQuestions prompts parse b h shuffle takeFour).length ≤ 5) ∧
    (qAttemptFails prompts parse h = true →
      generateContextualQuestions prompts parse b h shuffle takeFour =
        (generateMockQuestions b shuffle takeFour).map Json.str ∧
      ((generateContextualQuestions prompts parse b h shuffle takeFour).length = 3 ∨
        (generateContextualQuestions prompts parse b h shuffle takeFour).length = 4) ∧
      ∀ j ∈ generateContextualQuestions prompts parse b h shuffle takeFour,
        ∃ q, j = Json.str q ∧ q ≠ "" ∧ q ∈ questionPool b.impactType) := by
  have hmlen : (generateMockQuestions b shuffle takeFour).length = if takeFour then 4 else 3 :=
    mockQuestions_length b shuffle takeFour hsh
  have hb : 3 ≤ ((generateMockQuestions b shuffle takeFour).map Json.str).length ∧
      ((generateMockQuestions b shuffle takeFour).map Json.str).length ≤ 5 := by
    rw [List.length_map, hmlen]
    cases takeFour <;> simp
  constructor
  · unfold generateContextualQuestions buildPromptById
    repeat' split
    all_goals first | exact hb | assumption
  · intro hf
    have hr := qFails_gives_mock prompts parse b h shuffle takeFour hf
    refine ⟨hr, ?_, ?_⟩
    · rw [hr, List.length_map, hmlen]
      cases takeFour
      · exact Or.inl rfl
      · exact Or.inr rfl
    · intro j hj
      rw [hr] at hj
      obtain ⟨q, hq, rfl⟩ := List.mem_map.mp hj
      have hq' : q ∈ shuffle (questionPool b.impactType) := List.mem_of_mem_take hq
      have hpool : q ∈ questionPool b.impactType := ((hsh _).mem_iff).mp hq'
      have hne : ∀ x ∈ questionPool b.impactType, x ≠ "" := by
        unfold questionPool
        split
        · decide
        · split <;> decide
      exact ⟨q, rfl, hne q hpool, hpool⟩

/-- C1, witness: fallback path, identity shuffle, three questions. -/
theorem contextualQuestions_shape_witness :
    3 ≤ (generateContextualQuestions [] (fun _ => none) ⟨some "s", none, none⟩ .throws
        (fun l => l) false).length ∧
    (generateContextualQuestions [] (fun _ => none) ⟨some "s", none, none⟩ .throws
        (fun l => l) false).length ≤ 5 := by
  exact (contextualQuestions_shape [] (fun _ => none) ⟨some "s", none, none⟩ .throws
    (fun l => l) false (fun l => List.Perm.refl l)).1

/-! ## C3 — the fallback statement's 100-word limit -/

/-- A string without spaces splits into itself. -/
theorem splitSp_no_space (w : List Char) (hw : ' ' ∉ w) : splitSp w = [w] := by
  induction w with
  | nil => rfl
  | cons c cs ih =>
    have hc : ¬c = ' ' := fun hc => hw (hc ▸ List.mem_cons_self c cs)
    have hcs : ' ' ∉ cs := fun hm => hw (List.mem_cons_of_mem c hm)
    unfold splitSp
    rw [if_neg hc, ih hcs]

/-- Splitting at the first separator after a space-free word. -/
theorem splitSp_append_sep (w t : List Char) (hw : ' ' ∉ w) :
    splitSp (w ++ ' ' :: t) = w :: splitSp t := by
  induction w with
  | nil =>
    show splitSp (' ' :: t) = [] :: splitSp t
    conv_lhs => unfold splitSp
    rw [if_pos rfl]
  | cons c w' ih =>
    have hc : ¬c = ' ' := fun hc => hw (hc ▸ List.mem_cons_self c w')
    have hw' : ' ' ∉ w' := fun hm => hw (List.mem_cons_of_mem c hm)
    show splitSp (c :: (w' ++ ' ' :: t)) = (c :: w') :: splitSp t
    conv_lhs => unfold splitSp
    rw [if_neg hc, ih hw']

/-- Every piece of `splitSp` is space-free. -/
theorem splitSp_mem_no_space (l : List Char) : ∀ w ∈ splitSp l, ' ' ∉ w := by
  induction l with
  | nil =>
    intro w hw
    simp only [splitSp, List.mem_singleton] at hw
    subst hw
    exact List.not_mem_nil ' '
  | cons c cs ih =>
    intro w hw
    unfold splitSp at hw
    by_cases hc : c = ' '
    · rw [if_pos hc] at hw
      rcases List.mem_cons.mp hw with h1 | h1
      · subst h1; exact List.not_mem_nil ' '
      · exact ih w h1
    · rw [if_neg hc] at hw
      cases hs : splitSp cs with
      | nil =>
        rw [hs] at hw
        simp only [List.mem_singleton] at hw
        subst hw
        intro hm
        rcases List.mem_cons.mp hm with h1 | h1
        · exact hc h1.symm
        · exact List.not_mem_nil ' ' h1
      | cons w0 ws =>
        rw [hs] at hw
        rcases List.mem_cons.mp hw with h1 | h1
        · subst h1
          intro hm
          rcases List.mem_cons.mp hm with h2 | h2
          · exact hc h2.symm
          · exact ih w0 (hs ▸ List.mem_cons_self w0 ws) h2
        · exact ih w (hs ▸ List.mem_cons_of_mem w0 h1)

/-- Splitting `words.join(' ') + suffix` for space-free words and a
space-free suffix yields exactly one piece per word. -/
theorem splitSp_join_append (ws : List (List Char)) (xs : List Char) (hne : ws ≠ [])
    (hws : ∀ w ∈ ws, ' ' ∉ w) (hxs : ' ' ∉ xs) :
    (splitSp (joinSpChars ws ++ xs)).length = ws.length := by
  induction ws with
  | nil => exact absurd rfl hne
  | cons w rest ih =>
    cases rest with
    | nil =>
      show (splitSp (joinSpChars [w] ++ xs)).length = 1
      have hw : ' ' ∉ w := hws w (List.mem_cons_self w [])
      have : ' ' ∉ w ++ xs := by
        intro hm
        rcases List.mem_append.mp hm with h1 | h1
        · exact hw h1
        · exact hxs h1
      show (splitSp (w ++ xs)).length = 1
      rw [splitSp_no_space (w ++ xs) this]
      rfl
    | cons w' rest' =>
      have hw : ' ' ∉ w := hws w (List.mem_cons_self w (w' :: rest'))
      have hrest : ∀ u ∈ w' :: rest', ' ' ∉ u := fun u hu =>
        hws u (List.mem_cons_of_mem w hu)
      have hjoin : joinSpChars (w :: w' :: rest') = w ++ ' ' :: joinSpChars (w' :: rest') :=
        rfl
      rw [hjoin, List.append_assoc, List.cons_append]
      rw [splitSp_append_sep w (joinSpChars (w' :: rest') ++ xs) hw]
      simp only [List.length_cons]
      rw [ih (by simp) hrest]
      simp

/-- C3.  The fallback statement contains at most 100 space-separated
words; whenever the composed statement exceeds 100 words, the returned
value is the hard truncation to its first 97 words with a trailing
ellipsis (and hence itself counts 97 words). -/
theorem mockStatement_word_limit (n : Option String) (stmt : String)
    (a d it : Option String) :
    spaceWordCount (mockStatementCore n stmt a d it) ≤ 100 ∧
    ((splitSp (composeMockStatement n stmt a d it).data).length > 100 →
      mockStatementCore n stmt a d it =
        joinSp ((splitSp (composeMockStatement n stmt a d it).data).take 97) ++ "..." ∧
      spaceWordCount (mockStatementCore n stmt a d it) = 97) := by
  by_cases hlen : (splitSp (composeMockStatement n stmt a d it).data).length > 100
  · have hcore : mockStatementCore n stmt a d it =
        joinSp ((splitSp (composeMockStatement n stmt a d it).data).take 97) ++ "..." := by
      unfold mockStatementCore
      rw [if_pos hlen]
    have hcount : spaceWordCount (mockStatementCore n stmt a d it) = 97 := by
      rw [hcore]
      unfold spaceWordCount joinSp
      rw [String.data_append]
      have h97 : ((splitSp (composeMockStatement n stmt a d it).data).take 97).length = 97 := by
        rw [List.length_take]
        omega
      have hlem := splitSp_join_append
        ((splitSp (composeMockStatement n stmt a d it).data).take 97) ("...".data)
        (by
          intro hnil
          rw [hnil] at h97
          simp at h97)
        (fun w hw => splitSp_mem_no_space (composeMockStatement n stmt a d it).data w
          (List.mem_of_mem_take hw))
        (by decide)
      rw [hlem, h97]
    exact ⟨by rw [hcount]; omega, fun _ => ⟨hcore, hcount⟩⟩
  · have hcore : mockStatementCore n stmt a d it = composeMockStatement n stmt a d it := by
      unfold mockStatementCore
      rw [if_neg hlen]
    refine ⟨?_, fun hcon => absurd hcon hlen⟩
    rw [hcore]
    unfold spaceWordCount
    omega

set_option maxRecDepth 100000 in
/-- C3, witness: a draft whose additional details push the composed
statement past 100 words; the result is truncated to 97 words. -/
theorem mockStatement_word_limit_witness :
    spaceWordCount (mockStatementCore none "went" none
      (some (String.intercalate " " (List.replicate 101 "w"))) none) ≤ 100 ∧
    spaceWordCount (mockStatementCore none "went" none
      (some (String.intercalate " " (List.replicate 101 "w"))) none) = 97 := by
  exact ⟨(mockStatement_word_limit none "went" none
      (some (String.intercalate " " (List.replicate 101 "w"))) none).1,
    ((mockStatement_word_limit none "went" none
      (some (String.intercalate " " (List.replicate 101 "w"))) none).2 (by decide)).2⟩

/-! ## C5 — frame and substitution of the prompt builder

The source substitutes sequentially, one declared variable after the
other, over the result of the previous substitution; the spec's words
describe one simultaneous pass.  The two agree exactly when no resolved
value re-introduces placeholder text or a replacement `$`-sequence,
which the counterexample below violates.  The development proves the
agreement for every template that parses into literal/placeholder
segments with brace-free literals, word-character declared names (so
`new RegExp("\x7b\x7bkey\x7d\x7d")` is the literal-text pattern the
model scans for) and brace-free, dollar-free values (so `expandDollar`
inserts them verbatim). -/

/-- A dollar-free replacement template is inserted verbatim. -/
theorem expandDollar_no_dollar (m b a : List Char) :
    ∀ (r : List Char), '$' ∉ r → expandDollar m b a r = r := by
  intro r
  induction r with
  | nil => intro _; rfl
  | cons c rest ih =>
    intro hr
    have hc : ¬c = '$' := fun h => hr (h ▸ List.mem_cons_self c rest)
    have hrest : '$' ∉ rest := fun hm => hr (List.mem_cons_of_mem c hm)
    cases rest with
    | nil =>
      show (if c = '$' then ['$'] else [c]) = [c]
      rw [if_neg hc]
    | cons c₂ rest₂ =>
      show (if c = '$' then _ else c :: expandDollar m b a (c₂ :: rest₂)) = c :: c₂ :: rest₂
      rw [if_neg hc, ih hrest]

/-- Skipping `n` characters first is the same as starting after `drop n`
(the consumed-prefix accumulator is advanced at match time, not while
skipping). -/
theorem replaceAllAux_eq_drop (p r : List Char) :
    ∀ (cs before : List Char) (n : Nat),
      replaceAllAux p r before n cs = replaceAllAux p r before 0 (cs.drop n) := by
  intro cs
  induction cs with
  | nil => intro before n; cases n <;> rfl
  | cons a cs' ih =>
    intro before n
    cases n with
    | zero => rfl
    | succ m =>
      show replaceAllAux p r before m cs' = replaceAllAux p r before 0 ((a :: cs').drop (m + 1))
      rw [List.drop_succ_cons]
      exact ih before m

/-- With a dollar-free replacement the consumed-prefix accumulator never
influences the result. -/
theorem replaceAllAux_before (p r : List Char) (hr : '$' ∉ r) :
    ∀ (l : List Char) (n : Nat) (b₁ b₂ : List Char),
      replaceAllAux p r b₁ n l = replaceAllAux p r b₂ n l := by
  intro l
  induction l with
  | nil => intro n b₁ b₂; cases n <;> rfl
  | cons c cs ih =>
    intro n b₁ b₂
    cases n with
    | succ m => exact ih m b₁ b₂
    | zero =>
      show (if p.isPrefixOf (c :: cs) then
          expandDollar p b₁ (cs.drop (p.length - 1)) r ++
            replaceAllAux p r (b₁ ++ p) (p.length - 1) cs
        else c :: replaceAllAux p r (b₁ ++ [c]) 0 cs) =
        (if p.isPrefixOf (c :: cs) then
          expandDollar p b₂ (cs.drop (p.length - 1)) r ++
            replaceAllAux p r (b₂ ++ p) (p.length - 1) cs
        else c :: replaceAllAux p r (b₂ ++ [c]) 0 cs)
      by_cases hp : p.isPrefixOf (c :: cs) = true
      · rw [if_pos hp, if_pos hp]
        rw [expandDollar_no_dollar p b₁ (cs.drop (p.length - 1)) r hr,
          expandDollar_no_dollar p b₂ (cs.drop (p.length - 1)) r hr]
        rw [ih (p.length - 1) (b₁ ++ p) (b₂ ++ p)]
      · rw [if_neg hp, if_neg hp]
        rw [ih 0 (b₁ ++ [c]) (b₂ ++ [c])]

/-- `replaceAll` on the empty string. -/
theorem replaceAll_nil (p r : List Char) : replaceAll p r [] = [] := rfl

/-- The one-step unfolding of `replaceAll` for a dollar-free replacement,
in the left-to-right scan-or-skip form of the JavaScript global
replace. -/
theorem replaceAll_cons (p r : List Char) (c : Char) (cs : List Char) (hr : '$' ∉ r) :
    replaceAll p r (c :: cs) =
      if p.isPrefixOf (c :: cs) then r ++ replaceAll p r (cs.drop (p.length - 1))
      else c :: replaceAll p r cs := by
  show replaceAllAux p r [] 0 (c :: cs) = _
  unfold replaceAllAux
  by_cases hp : p.isPrefixOf (c :: cs) = true
  · rw [if_pos hp, if_pos hp]
    rw [expandDollar_no_dollar p [] (cs.drop (p.length - 1)) r hr]
    rw [replaceAllAux_before p r hr cs (p.length - 1) ([] ++ p) []]
    rw [replaceAllAux_eq_drop]
    rfl
  · rw [if_neg hp, if_neg hp]
    rw [replaceAllAux_before p r hr cs 0 ([] ++ [c]) []]
    rfl

/-- Skipping `n` characters first is the same as starting after `drop n`. -/
theorem specSubstAux_eq_drop (pv : List (String × String)) :
    ∀ (cs : List Char) (n : Nat), specSubstAux pv n cs = specSubstAux pv 0 (cs.drop n) := by
  intro cs
  induction cs with
  | nil => intro n; cases n <;> rfl
  | cons a cs' ih =>
    intro n
    cases n with
    | zero => rfl
    | succ m =>
      show specSubstAux pv m cs' = specSubstAux pv 0 ((a :: cs').drop (m + 1))
      rw [List.drop_succ_cons]
      exact ih m

/-- `specSubst` on the empty string. -/
theorem specSubst_nil (pv : List (String × String)) : specSubst pv [] = [] := rfl

/-- The one-step unfolding of `specSubst`. -/
theorem specSubst_cons (pv : List (String × String)) (c : Char) (cs : List Char) :
    specSubst pv (c :: cs) =
      match findVar pv (c :: cs) with
      | some kv => kv.2.data ++ specSubst pv (cs.drop ((placeholder kv.1).length - 1))
      | none => c :: specSubst pv cs := by
  show specSubstAux pv 0 (c :: cs) = _
  unfold specSubstAux
  cases hf : findVar pv (c :: cs) with
  | none => rfl
  | some kv =>
    simp only
    rw [specSubstAux_eq_drop]
    rfl

/-- All characters are neither `{` nor `}`. -/
def braceFree (l : List Char) : Prop := ∀ c ∈ l, c ≠ '{' ∧ c ≠ '}'

instance (l : List Char) : Decidable (braceFree l) :=
  inferInstanceAs (Decidable (∀ c ∈ l, c ≠ '{' ∧ c ≠ '}'))

/-- A parsed context template: a sequence of literal pieces and
placeholders. -/
inductive Seg where
  | lit (l : List Char)
  | var (k : String)

/-- The characters a segment stands for in the raw template. -/
def segChars : Seg → List Char
  | .lit l => l
  | .var k => placeholder k

/-- The raw template text of a segment sequence. -/
def flattenSegs : List Seg → List Char
  | [] => []
  | s :: t => segChars s ++ flattenSegs t

/-- Well-formedness of one segment: literals and names are brace-free. -/
def SegOK : Seg → Prop
  | .lit l => braceFree l
  | .var k => braceFree k.data

instance : (s : Seg) → Decidable (SegOK s)
  | .lit l => inferInstanceAs (Decidable (braceFree l))
  | .var k => inferInstanceAs (Decidable (braceFree k.data))

/-- The effect of one sequential substitution pass on a segment. -/
def substVar (k : String) (v : List Char) : Seg → Seg
  | .lit l => .lit l
  | .var k' => if k' = k then .lit v else .var k'

/-- The effect of resolving all variables on a segment: a declared
placeholder becomes its value, an undeclared one stays verbatim. -/
def renderSeg (pv : List (String × String)) : Seg → Seg
  | .lit l => .lit l
  | .var k =>
    match alookup k pv with
    | some v => .lit v.data
    | none => .var k

/-- A list is a prefix of itself followed by anything. -/
theorem isPrefixOf_append_self (l t : List Char) : l.isPrefixOf (l ++ t) = true := by
  induction l with
  | nil => simp [List.isPrefixOf]
  | cons a l' ih => simp [List.isPrefixOf, ih]

/-- Two distinct brace-free names cannot be confused: the pattern
`name₂}}` never starts where the text reads `name}}...` with
`name ≠ name₂`. -/
theorem no_cross_match : ∀ (k k₂ t : List Char), braceFree k → braceFree k₂ → k ≠ k₂ →
    (k₂ ++ ['}', '}']).isPrefixOf (k ++ '}' :: '}' :: t) = false := by
  intro k
  induction k with
  | nil =>
    intro k₂ t _ hk₂ hne
    cases k₂ with
    | nil => exact absurd rfl hne
    | cons b k₂' =>
      have hb : ¬(b == '}') = true := by
        simp only [beq_iff_eq]
        exact (hk₂ b (List.mem_cons_self b k₂')).2
      simp [List.isPrefixOf, hb]
  | cons a k' ih =>
    intro k₂ t hk hk₂ hne
    cases k₂ with
    | nil =>
      have ha : ¬('}' == a) = true := by
        simp only [beq_iff_eq]
        exact fun h => (hk a (List.mem_cons_self a k')).2 h.symm
      simp [List.isPrefixOf, ha]
    | cons b k₂' =>
      by_cases hab : b = a
      · subst hab
        have hk' : braceFree k' := fun c hc => hk c (List.mem_cons_of_mem b hc)
        have hk₂' : braceFree k₂' := fun c hc => hk₂ c (List.mem_cons_of_mem b hc)
        have hne' : k' ≠ k₂' := fun h => hne (h ▸ rfl)
        have := ih k₂' t hk' hk₂' hne'
        simpa [List.isPrefixOf] using this
      · have hba : ¬(b == a) = true := by
          simp only [beq_iff_eq]
          exact hab
        simp [List.isPrefixOf, hba]

/-- A pattern starting with a character absent from `s` scans through
`s` without matching. -/
theorem replaceAll_append_pass (p v : List Char) (hv : '$' ∉ v) (c₀ : Char) (pt : List Char)
    (hp : p = c₀ :: pt) :
    ∀ (s t : List Char), c₀ ∉ s →
      replaceAll p v (s ++ t) = s ++ replaceAll p v t := by
  subst hp
  intro s
  induction s with
  | nil => intro t _; rfl
  | cons a s' ih =>
    intro t hs
    have ha : ¬(c₀ == a) = true := by
      simp only [beq_iff_eq]
      exact fun h => hs (h ▸ List.mem_cons_self a s')
    have hnp : (c₀ :: pt).isPrefixOf (a :: (s' ++ t)) = false := by
      simp [List.isPrefixOf, ha]
    rw [List.cons_append, replaceAll_cons _ _ _ _ hv, hnp]
    simp only [Bool.false_eq_true, if_false]
    rw [ih t (fun hm => hs (List.mem_cons_of_mem a hm))]
    rw [List.cons_append]

/-- Replacing a placeholder right where it stands. -/
theorem replaceAll_at_self (k : String) (v rest : List Char) (hv : '$' ∉ v) :
    replaceAll (placeholder k) v (placeholder k ++ rest) =
      v ++ replaceAll (placeholder k) v rest := by
  have hsplit : placeholder k ++ rest =
      '{' :: (('{' :: (k.data ++ ['}', '}'])) ++ rest) := rfl
  rw [hsplit, replaceAll_cons _ _ _ _ hv]
  have hpre : (placeholder k).isPrefixOf ('{' :: (('{' :: (k.data ++ ['}', '}'])) ++ rest)) =
      true := by
    rw [← hsplit]
    exact isPrefixOf_append_self (placeholder k) rest
  rw [hpre, if_pos rfl]
  have hlen : (placeholder k).length - 1 = ('{' :: (k.data ++ ['}', '}'])).length := by
    simp [placeholder]
  rw [hlen, List.drop_left]

/-- A different declared name's placeholder is scanned over verbatim. -/
theorem replaceAll_at_other (k k' : String) (v rest : List Char) (hv : '$' ∉ v)
    (hk : braceFree k.data) (hk' : braceFree k'.data) (hne : k' ≠ k) :
    replaceAll (placeholder k) v (placeholder k' ++ rest) =
      placeholder k' ++ replaceAll (placeholder k) v rest := by
  have hdata : k'.data ≠ k.data := fun h => hne (String.ext h)
  have hrw : placeholder k' ++ rest = '{' :: '{' :: (k'.data ++ '}' :: '}' :: rest) := by
    simp [placeholder]
  have hnm0 : (placeholder k).isPrefixOf ('{' :: '{' :: (k'.data ++ '}' :: '}' :: rest)) =
      false := by
    have hcross := no_cross_match k'.data k.data rest hk' hk (fun h => hdata h)
    simp only [placeholder, List.isPrefixOf, beq_self_eq_true, Bool.true_and]
    simpa using hcross
  have hnm1 : (placeholder k).isPrefixOf ('{' :: (k'.data ++ '}' :: '}' :: rest)) = false := by
    cases hkd : k'.data with
    | nil => simp [placeholder, List.isPrefixOf]
    | cons b l =>
      have hb : ¬('{' == b) = true := by
        simp only [beq_iff_eq]
        intro h
        exact (hk' b (by rw [hkd]; exact List.mem_cons_self b l)).1 h.symm
      simp [placeholder, List.isPrefixOf, hb]
  have hnm2 : ∀ u : List Char, (placeholder k).isPrefixOf ('}' :: u) = false := by
    intro u
    simp [placeholder, List.isPrefixOf]
  rw [hrw, replaceAll_cons _ _ _ _ hv, hnm0]
  simp only [Bool.false_eq_true, if_false]
  rw [replaceAll_cons _ _ _ _ hv, hnm1]
  simp only [Bool.false_eq_true, if_false]
  have hnob : '{' ∉ k'.data := fun hm => ( hk' '{' hm).1 rfl
  rw [replaceAll_append_pass (placeholder k) v hv '{' ('{' :: (k.data ++ ['}', '}'])) rfl
    k'.data ('}' :: '}' :: rest) hnob]
  rw [replaceAll_cons _ _ _ _ hv, hnm2]
  simp only [Bool.false_eq_true, if_false]
  rw [replaceAll_cons _ _ _ _ hv, hnm2]
  simp only [Bool.false_eq_true, if_false]
  simp [placeholder]

/-- One sequential substitution pass over a well-formed template
replaces exactly this variable's placeholders, segment by segment. -/
theorem replaceAll_flatten (k : String) (v : List Char) (hk : braceFree k.data)
    (hv : '$' ∉ v) :
    ∀ (segs : List Seg), (∀ s ∈ segs, SegOK s) →
      replaceAll (placeholder k) v (flattenSegs segs) =
        flattenSegs (segs.map (substVar k v)) := by
  intro segs
  induction segs with
  | nil => intro _; rfl
  | cons sg rest ih =>
    intro hsegs
    have hrest : ∀ s ∈ rest, SegOK s := fun s hs => hsegs s (List.mem_cons_of_mem sg hs)
    have hsg : SegOK sg := hsegs sg (List.mem_cons_self sg rest)
    cases sg with
    | lit l =>
      have hlit : braceFree l := hsg
      have hnob : '{' ∉ l := fun hm => (hlit '{' hm).1 rfl
      show replaceAll (placeholder k) v (l ++ flattenSegs rest) =
        l ++ flattenSegs (rest.map (substVar k v))
      rw [replaceAll_append_pass (placeholder k) v hv '{' ('{' :: (k.data ++ ['}', '}'])) rfl
        l (flattenSegs rest) hnob]
      rw [ih hrest]
    | var k' =>
      have hk' : braceFree k'.data := hsg
      by_cases hkk : k' = k
      · subst hkk
        show replaceAll (placeholder k') v (placeholder k' ++ flattenSegs rest) =
          flattenSegs ((substVar k' v (.var k')) :: rest.map (substVar k' v))
        rw [replaceAll_at_self k' v (flattenSegs rest) hv, ih hrest]
        simp [substVar, flattenSegs, segChars]
      · show replaceAll (placeholder k) v (placeholder k' ++ flattenSegs rest) =
          flattenSegs ((substVar k v (.var k')) :: rest.map (substVar k v))
        rw [replaceAll_at_other k k' v (flattenSegs rest) hv hk hk' hkk, ih hrest]
        simp [substVar, hkk, flattenSegs, segChars]

/-- Each substituted segment stays well-formed when the value is
brace-free. -/
theorem substVar_SegOK (k : String) (v : List Char) (hv : braceFree v) (s : Seg)
    (hs : SegOK s) : SegOK (substVar k v s) := by
  cases s with
  | lit l => exact hs
  | var k' =>
    by_cases hkk : k' = k
    · simp only [substVar, if_pos hkk]
      exact hv
    · simp only [substVar, if_neg hkk]
      exact hs

/-- Resolving a variable after an earlier pass is resolving against the
extended map. -/
theorem renderSeg_substVar (k : String) (v : String)
    (pvt : List (String × String)) (s : Seg) :
    renderSeg pvt (substVar k v.data s) = renderSeg ((k, v) :: pvt) s := by
  cases s with
  | lit l => rfl
  | var k' =>
    by_cases hkk : k' = k
    · subst hkk
      simp [substVar, renderSeg, alookup]
    · have hkk' : ¬k = k' := fun h => hkk h.symm
      simp [substVar, renderSeg, alookup, hkk, hkk']

/-- The full sequential fold over a well-formed template equals the
segment-wise resolution against the whole variable map. -/
theorem foldl_replaceAll_flatten :
    ∀ (pv : List (String × String)) (segs : List Seg),
      (∀ kv ∈ pv, braceFree kv.1.data ∧ braceFree kv.2.data ∧ '$' ∉ kv.2.data) →
      (∀ s ∈ segs, SegOK s) →
      pv.foldl (fun l kv => replaceAll (placeholder kv.1) kv.2.data l) (flattenSegs segs) =
        flattenSegs (segs.map (renderSeg pv)) := by
  intro pv
  induction pv with
  | nil =>
    intro segs _ _
    have h1 : ∀ s ∈ segs, renderSeg [] s = s := by
      intro s _
      cases s <;> rfl
    rw [List.foldl_nil, List.map_congr_left h1, List.map_id']
  | cons kv pvt ih =>
    intro segs hpv hsegs
    obtain ⟨k, v⟩ := kv
    have hk : braceFree k.data := (hpv (k, v) (List.mem_cons_self (k, v) pvt)).1
    have hv : braceFree v.data := (hpv (k, v) (List.mem_cons_self (k, v) pvt)).2.1
    have hv' : '$' ∉ v.data := (hpv (k, v) (List.mem_cons_self (k, v) pvt)).2.2
    have hpvt : ∀ kv ∈ pvt, braceFree kv.1.data ∧ braceFree kv.2.data ∧ '$' ∉ kv.2.data :=
      fun kv hm => hpv kv (List.mem_cons_of_mem (k, v) hm)
    rw [List.foldl_cons]
    rw [replaceAll_flatten k v.data hk hv' segs hsegs]
    rw [ih (segs.map (substVar k v.data)) hpvt
      (fun s hs => by
        obtain ⟨s0, hs0, rfl⟩ := List.mem_map.mp hs
        exact substVar_SegOK k v.data hv s0 (hsegs s0 hs0))]
    rw [List.map_map]
    congr 1
    apply List.map_congr_left
    intro s _
    exact renderSeg_substVar k v pvt s

/-- No placeholder matches at a position that does not read `{`. -/
theorem findVar_none_head (pv : List (String × String)) (c : Char) (t : List Char)
    (hc : c ≠ '{') : findVar pv (c :: t) = none := by
  unfold findVar
  rw [List.find?_eq_none]
  intro kv _
  have : ¬('{' == c) = true := by
    simp only [beq_iff_eq]
    exact fun h => hc h.symm
  simp [placeholder, List.isPrefixOf, this]

/-- No placeholder matches at a position reading `{` not followed by `{`. -/
theorem findVar_none_second (pv : List (String × String)) (c₂ : Char) (u : List Char)
    (hc₂ : c₂ ≠ '{') : findVar pv ('{' :: c₂ :: u) = none := by
  unfold findVar
  rw [List.find?_eq_none]
  intro kv _
  have : ¬('{' == c₂) = true := by
    simp only [beq_iff_eq]
    exact fun h => hc₂ h.symm
  simp [placeholder, List.isPrefixOf, this]

/-- The simultaneous pass scans a brace-free literal verbatim. -/
theorem specSubst_append_pass (pv : List (String × String)) :
    ∀ (s t : List Char), '{' ∉ s →
      specSubst pv (s ++ t) = s ++ specSubst pv t := by
  intro s
  induction s with
  | nil => intro t _; rfl
  | cons a s' ih =>
    intro t hs
    have ha : a ≠ '{' := fun h => hs (h ▸ List.mem_cons_self a s')
    rw [List.cons_append, specSubst_cons, findVar_none_head pv a (s' ++ t) ha]
    rw [ih t (fun hm => hs (List.mem_cons_of_mem a hm))]
    rw [List.cons_append]

/-- At a placeholder of a brace-free name, `findVar` finds exactly this
name's binding (first declared occurrence), if any. -/
theorem findVar_at_placeholder (k : String) (t : List Char) (hk : braceFree k.data) :
    ∀ (pv : List (String × String)), (∀ kv ∈ pv, braceFree kv.1.data) →
      findVar pv (placeholder k ++ t) = (alookup k pv).map (fun v => (k, v)) := by
  intro pv
  induction pv with
  | nil => intro _; rfl
  | cons kv pvt ih =>
    intro hpv
    obtain ⟨k₁, v₁⟩ := kv
    have hk₁ : braceFree k₁.data := hpv (k₁, v₁) (List.mem_cons_self (k₁, v₁) pvt)
    have hpvt : ∀ kv ∈ pvt, braceFree kv.1.data := fun kv hm =>
      hpv kv (List.mem_cons_of_mem (k₁, v₁) hm)
    by_cases hkk : k₁ = k
    · subst hkk
      have hpre : (placeholder k₁).isPrefixOf (placeholder k₁ ++ t) = true :=
        isPrefixOf_append_self (placeholder k₁) t
      unfold findVar
      simp [List.find?, hpre, alookup]
    · have hdata : k.data ≠ k₁.data := fun h => hkk (String.ext h.symm)
      have hnp : (placeholder k₁).isPrefixOf (placeholder k ++ t) = false := by
        have hsplit : placeholder k ++ t = '{' :: '{' :: (k.data ++ '}' :: '}' :: t) := by
          simp [placeholder]
        rw [hsplit]
        have hcross := no_cross_match k.data k₁.data t hk hk₁ hdata
        simp only [placeholder, List.isPrefixOf, beq_self_eq_true, Bool.true_and]
        simpa using hcross
      unfold findVar
      rw [List.find?_cons_of_neg _ (by simp [hnp])]
      have hrec := ih hpvt
      unfold findVar at hrec
      rw [hrec]
      simp [alookup, hkk]

/-- The simultaneous pass at a declared or undeclared placeholder. -/
theorem specSubst_at_var (pv : List (String × String)) (k : String) (t : List Char)
    (hpv : ∀ kv ∈ pv, braceFree kv.1.data) (hk : braceFree k.data) :
    specSubst pv (placeholder k ++ t) =
      match alookup k pv with
      | some v => v.data ++ specSubst pv t
      | none => placeholder k ++ specSubst pv t := by
  have hsplit : placeholder k ++ t =
      '{' :: (('{' :: (k.data ++ ['}', '}'])) ++ t) := rfl
  have hfv : findVar pv ('{' :: (('{' :: (k.data ++ ['}', '}'])) ++ t)) =
      (alookup k pv).map (fun v => (k, v)) := by
    rw [← hsplit]
    exact findVar_at_placeholder k t hk pv hpv
  cases hak : alookup k pv with
  | some v =>
    rw [hak] at hfv
    rw [hsplit, specSubst_cons, hfv]
    simp only [Option.map_some']
    have hlen : (placeholder k).length - 1 = ('{' :: (k.data ++ ['}', '}'])).length := by
      simp [placeholder]
    rw [hlen, List.drop_left]
  | none =>
    rw [hak] at hfv
    rw [hsplit, specSubst_cons, hfv]
    simp only [Option.map_none']
    have hrest : ('{' :: (k.data ++ ['}', '}'])) ++ t =
        '{' :: (k.data ++ '}' :: '}' :: t) := by
      simp
    rw [hrest]
    have hsecond : findVar pv ('{' :: (k.data ++ '}' :: '}' :: t)) = none := by
      cases hkd : k.data with
      | nil => exact findVar_none_second pv '}' ('}' :: t) (by decide)
      | cons b l =>
        have hb : b ≠ '{' :=
          (hk b (by rw [hkd]; exact List.mem_cons_self b l)).1
        exact findVar_none_second pv b (l ++ '}' :: '}' :: t) hb
    rw [specSubst_cons, hsecond]
    have hnob : '{' ∉ k.data := fun hm => (hk '{' hm).1 rfl
    rw [specSubst_append_pass pv k.data ('}' :: '}' :: t) hnob]
    rw [specSubst_cons, findVar_none_head pv '}' ('}' :: t) (by decide)]
    rw [specSubst_cons, findVar_none_head pv '}' t (by decide)]
    simp [placeholder]

/-- The simultaneous pass over a well-formed template resolves exactly
the declared placeholders and keeps everything else verbatim. -/
theorem specSubst_flatten (pv : List (String × String))
    (hpv : ∀ kv ∈ pv, braceFree kv.1.data) :
    ∀ (segs : List Seg), (∀ s ∈ segs, SegOK s) →
      specSubst pv (flattenSegs segs) = flattenSegs (segs.map (renderSeg pv)) := by
  intro segs
  induction segs with
  | nil => intro _; rfl
  | cons sg rest ih =>
    intro hsegs
    have hrest : ∀ s ∈ rest, SegOK s := fun s hs => hsegs s (List.mem_cons_of_mem sg hs)
    have hsg : SegOK sg := hsegs sg (List.mem_cons_self sg rest)
    cases sg with
    | lit l =>
      have hnob : '{' ∉ l := fun hm => ((hsg : braceFree l) '{' hm).1 rfl
      show specSubst pv (l ++ flattenSegs rest) = l ++ flattenSegs (rest.map (renderSeg pv))
      rw [specSubst_append_pass pv l (flattenSegs rest) hnob, ih hrest]
    | var k =>
      have hk : braceFree k.data := hsg
      show specSubst pv (placeholder k ++ flattenSegs rest) =
        segChars (renderSeg pv (.var k)) ++ flattenSegs (rest.map (renderSeg pv))
      rw [specSubst_at_var pv k (flattenSegs rest) hpv hk]
      cases hak : alookup k pv with
      | some v =>
        simp only [renderSeg, hak]
        rw [ih hrest]
        rfl
      | none =>
        simp only [renderSeg, hak]
        rw [ih hrest]
        rfl

/-- A declared variable name made only of word characters: such a name
contains no regex metacharacter, so `new RegExp` on its placeholder is
the literal-text pattern `replaceAll` scans for. -/
def wordChars (k : String) : Prop := ∀ c ∈ k.data, c.isAlphanum = true ∨ c = '_'

instance (k : String) : Decidable (wordChars k) :=
  inferInstanceAs (Decidable (∀ c ∈ k.data, c.isAlphanum = true ∨ c = '_'))

/-- Word characters are brace-free. -/
theorem wordChars_braceFree (k : String) (h : wordChars k) : braceFree k.data := by
  intro c hc
  rcases h c hc with ha | ha
  · constructor <;> intro hceq <;> rw [hceq] at ha <;> exact absurd ha (by decide)
  · subst ha
    exact ⟨by decide, by decide⟩

/-- The string-level substitution fold of `buildPrompt`, at the
character level. -/
theorem foldl_jsReplaceAll_data :
    ∀ (pv : List (String × String)) (s : String),
      (pv.foldl (fun ctx kv => jsReplaceAll ctx kv.1 kv.2) s).data =
        pv.foldl (fun l kv => replaceAll (placeholder kv.1) kv.2.data l) s.data := by
  intro pv
  induction pv with
  | nil => intro s; rfl
  | cons kv pvt ih =>
    intro s
    rw [List.foldl_cons, List.foldl_cons]
    rw [ih (jsReplaceAll s kv.1 kv.2)]
    rfl

/-- C5, counterexample.  Substitution is sequential, so a value may
re-introduce a later variable's placeholder, which the next pass then
substitutes: for context template "{{a}}" with a ↦ "{{b}}", b ↦ "X",
`buildPrompt` yields context "X" while the spec's simultaneous wording
("every occurrence substituted, unmatched placeholders left verbatim")
yields "{{b}}". -/
theorem buildPrompt_claim_counterexample :
    buildPrompt ⟨"S", "\x7b\x7ba\x7d\x7d", "T", "F",
        [("a", ⟨true, none⟩), ("b", ⟨true, none⟩)]⟩
        [("a", "\x7b\x7bb\x7d\x7d"), ("b", "X")] ≠
      specBuild ⟨"S", "\x7b\x7ba\x7d\x7d", "T", "F",
        [("a", ⟨true, none⟩), ("b", ⟨true, none⟩)]⟩
        [("a", "\x7b\x7bb\x7d\x7d"), ("b", "X")] ∧
    (buildPrompt ⟨"S", "\x7b\x7ba\x7d\x7d", "T", "F",
        [("a", ⟨true, none⟩), ("b", ⟨true, none⟩)]⟩
        [("a", "\x7b\x7bb\x7d\x7d"), ("b", "X")]).context = "X" ∧
    (specBuild ⟨"S", "\x7b\x7ba\x7d\x7d", "T", "F",
        [("a", ⟨true, none⟩), ("b", ⟨true, none⟩)]⟩
        [("a", "\x7b\x7bb\x7d\x7d"), ("b", "X")]).context = "\x7b\x7bb\x7d\x7d" := by
  decide

/-- C5, amended.  For every loaded template and variable map, `build`
returns system, task and format byte-identical to the template's fields;
and whenever the context template parses into brace-free literals and
placeholders, every declared variable name consists of word characters
(letters, digits, underscore — hence is regex-literal), and every
resolved value is brace-free and dollar-free (so no substituted value
can form a placeholder or a `String.replace` `$`-sequence), the context
equals the spec's simultaneous substitution — every placeholder of a
declared variable replaced by its resolved value, unmatched placeholders
left verbatim, surrounding whitespace trimmed.  In general the
substitution is sequential in declaration order: values containing
placeholder text are substituted again by later passes, and values
containing `$$`, `$&`, a dollar-backquote or a dollar-quote sequence are
expanded by `String.replace` instead of inserted verbatim. -/
theorem buildPrompt_frame_and_subst (t : PromptTemplate)
    (supplied : List (String × String)) :
    (buildPrompt t supplied).system = t.system ∧
    (buildPrompt t supplied).task = t.task ∧
    (buildPrompt t supplied).format = t.format ∧
    (∀ segs : List Seg,
      t.contextTemplate.data = flattenSegs segs →
      (∀ s ∈ segs, SegOK s) →
      (∀ kv ∈ processVars t.vars supplied,
        wordChars kv.1 ∧ braceFree kv.2.data ∧ '$' ∉ kv.2.data) →
      buildPrompt t supplied = specBuild t supplied) := by
  refine ⟨rfl, rfl, rfl, ?_⟩
  intro segs hseg hsegok hpv0
  have hpv : ∀ kv ∈ processVars t.vars supplied,
      braceFree kv.1.data ∧ braceFree kv.2.data ∧ '$' ∉ kv.2.data :=
    fun kv hm => ⟨wordChars_braceFree kv.1 (hpv0 kv hm).1, (hpv0 kv hm).2⟩
  have hkeys : ∀ kv ∈ processVars t.vars supplied, braceFree kv.1.data :=
    fun kv hm => (hpv kv hm).1
  have hdata :
      ((processVars t.vars supplied).foldl
          (fun ctx kv => jsReplaceAll ctx kv.1 kv.2) t.contextTemplate).data =
        specSubst (processVars t.vars supplied) t.contextTemplate.data := by
    rw [foldl_jsReplaceAll_data, hseg]
    rw [foldl_replaceAll_flatten (processVars t.vars supplied) segs hpv hsegok]
    rw [specSubst_flatten (processVars t.vars supplied) hkeys segs hsegok]
  have hstr :
      (processVars t.vars supplied).foldl
          (fun ctx kv => jsReplaceAll ctx kv.1 kv.2) t.contextTemplate =
        String.mk (specSubst (processVars t.vars supplied) t.contextTemplate.data) :=
    String.ext hdata
  unfold buildPrompt specBuild
  rw [hstr]

/-- C5, witness: the template "Hello {{name}}!" with name ↦ "World":
sequential and simultaneous substitution agree. -/
theorem buildPrompt_frame_and_subst_witness :
    buildPrompt ⟨"sys", "Hello \x7b\x7bname\x7d\x7d!", "task", "fmt",
        [("name", ⟨true, none⟩)]⟩ [("name", "World")] =
      specBuild ⟨"sys", "Hello \x7b\x7bname\x7d\x7d!", "task", "fmt",
        [("name", ⟨true, none⟩)]⟩ [("name", "World")] := by
  exact (buildPrompt_frame_and_subst ⟨"sys", "Hello \x7b\x7bname\x7d\x7d!", "task", "fmt",
      [("name", ⟨true, none⟩)]⟩ [("name", "World")]).2.2.2
    [Seg.lit "Hello ".data, Seg.var "name", Seg.lit "!".data]
    rfl (by decide) (by decide)

end EAApp
